import Mathlib

/-!
Verification of the MODBUS_TCP_server repository core.

Bytes are modelled as `List Nat` (one `Nat` per byte), 16-bit register
words as integers with explicit `% 65536` where the Python code masks,
and Python floats as exact rationals `ℚ`.  Fallible Python code
(functions that `raise`) is modelled with `Except`.
-/

/-- Big-endian 16-bit word read at offset `i` (Python `struct.unpack`
of two consecutive bytes). -/
def u16be (l : List Nat) (i : Nat) : Nat :=
  256 * l.getD i 0 + l.getD (i + 1) 0

/-- Big-endian encoding of a 16-bit word (Python `struct.pack` of
`v & 0xFFFF`). -/
def pack16 (v : Nat) : List Nat :=
  [v / 256 % 256, v % 256]

/-- `ModbusRequest` dataclass from `src/modbus_tcp.py`. -/
structure ModbusRequest where
  transaction_id : Nat
  protocol_id : Nat
  unit_id : Nat
  function_code : Nat
  address : Nat
  value_or_count : Nat
deriving DecidableEq, Repr

/-- MBAP length field read from a buffer: bytes 4 and 5, big-endian. -/
def hdrLen (buf : List Nat) : Nat := u16be buf 4

/-- `frame_from_stream_buffer` from `src/modbus_tcp.py`: if the buffer
holds at least 6 header bytes and `6 + length` total bytes, split off
the first complete frame, otherwise return the buffer untouched. -/
def frame_from_stream_buffer (buf : List Nat) : Option (List Nat) × List Nat :=
  if buf.length < 6 then (none, buf)
  else if buf.length < 6 + hdrLen buf then (none, buf)
  else (some (buf.take (6 + hdrLen buf)), buf.drop (6 + hdrLen buf))

theorem frame_none_eq {buf r : List Nat}
    (h : frame_from_stream_buffer buf = (none, r)) : r = buf := by
  unfold frame_from_stream_buffer at h
  split at h
  · exact (Prod.mk.injEq _ _ _ _ ▸ h).2.symm
  · split at h
    · exact (Prod.mk.injEq _ _ _ _ ▸ h).2.symm
    · simp at h

theorem frame_some_spec {buf f r : List Nat}
    (h : frame_from_stream_buffer buf = (some f, r)) :
    6 ≤ buf.length ∧ 6 + hdrLen buf ≤ buf.length ∧
      f = buf.take (6 + hdrLen buf) ∧ r = buf.drop (6 + hdrLen buf) := by
  unfold frame_from_stream_buffer at h
  split at h
  · simp at h
  · next h6 =>
    split at h
    · simp at h
    · next htot =>
      obtain ⟨hf, hr⟩ := Prod.mk.injEq _ _ _ _ ▸ h
      refine ⟨Nat.le_of_not_lt h6, Nat.le_of_not_lt htot, ?_, hr.symm⟩
      exact (Option.some.injEq _ _ ▸ hf).symm

theorem frame_some_length_lt {buf f r : List Nat}
    (h : frame_from_stream_buffer buf = (some f, r)) : r.length < buf.length := by
  obtain ⟨h6, htot, _, hr⟩ := frame_some_spec h
  subst hr
  rw [List.length_drop]
  omega

/-- Drain every complete frame from a buffer, returning the emitted
frames in order and the unconsumed remainder.  This is the
`while True: frame, buf = frame_from_stream_buffer(buf)` loop of
`handle_client` in `src/server.py`. -/
def drainAll (buf : List Nat) : List (List Nat) × List Nat :=
  match h : frame_from_stream_buffer buf with
  | (none, _) => ([], buf)
  | (some f, r) =>
    have : r.length < buf.length := frame_some_length_lt h
    let p := drainAll r
    (f :: p.1, p.2)
termination_by buf.length

theorem drainAll_of_none {buf r : List Nat}
    (h : frame_from_stream_buffer buf = (none, r)) : drainAll buf = ([], buf) := by
  rw [drainAll]
  split
  · rfl
  · next f r' h' => rw [h] at h'; simp at h'

theorem drainAll_of_some {buf f r : List Nat}
    (h : frame_from_stream_buffer buf = (some f, r)) :
    drainAll buf = (f :: (drainAll r).1, (drainAll r).2) := by
  rw [drainAll]
  split
  · next h' => rw [h] at h'; simp at h'
  · next f' r' h' =>
    rw [h] at h'
    obtain ⟨hf, hr⟩ := Prod.mk.injEq _ _ _ _ ▸ h'
    cases Option.some.injEq _ _ ▸ hf
    cases hr
    rfl

theorem hdrLen_append {buf : List Nat} (ext : List Nat) (h : 6 ≤ buf.length) :
    hdrLen (buf ++ ext) = hdrLen buf := by
  unfold hdrLen u16be
  rw [List.getD_append _ _ _ _ (by omega), List.getD_append _ _ _ _ (by omega)]

theorem frame_append_some {buf f r : List Nat} (ext : List Nat)
    (h : frame_from_stream_buffer buf = (some f, r)) :
    frame_from_stream_buffer (buf ++ ext) = (some f, r ++ ext) := by
  obtain ⟨h6, htot, hf, hr⟩ := frame_some_spec h
  subst hf; subst hr
  unfold frame_from_stream_buffer
  rw [hdrLen_append ext h6, List.length_append]
  rw [if_neg (by omega), if_neg (by omega)]
  rw [List.take_append_of_le_length htot, List.drop_append_of_le_length htot]

theorem drainAll_append : ∀ (buf ext : List Nat),
    drainAll (buf ++ ext) =
      ((drainAll buf).1 ++ (drainAll ((drainAll buf).2 ++ ext)).1,
       (drainAll ((drainAll buf).2 ++ ext)).2)
  | buf, ext => by
    match h : frame_from_stream_buffer buf with
    | (none, r) =>
      rw [drainAll_of_none h]
      simp
    | (some f, r) =>
      have hlt : r.length < buf.length := frame_some_length_lt h
      rw [drainAll_of_some h, drainAll_of_some (frame_append_some ext h),
        drainAll_append r ext]
      simp
termination_by buf => buf.length

theorem drainAll_snd_stuck : ∀ buf : List Nat,
    frame_from_stream_buffer (drainAll buf).2 = (none, (drainAll buf).2)
  | buf => by
    match h : frame_from_stream_buffer buf with
    | (none, r) =>
      have hr := frame_none_eq h
      subst hr
      rw [drainAll_of_none h]
      exact h
    | (some f, r) =>
      have hlt : r.length < buf.length := frame_some_length_lt h
      rw [drainAll_of_some h]
      exact drainAll_snd_stuck r
termination_by buf => buf.length

/-- The `buf += data` / drain-all-frames loop of `handle_client` in
`src/server.py`, applied to a list of received chunks: each chunk is
appended to the unconsumed remainder, then all complete frames are
drained.  Returns all emitted frames in order plus the final
remainder. -/
def feedChunks : List Nat → List (List Nat) → List (List Nat) × List Nat
  | rem, [] => ([], rem)
  | rem, c :: cs =>
    let p := drainAll (rem ++ c)
    let q := feedChunks p.2 cs
    (p.1 ++ q.1, q.2)

theorem feedChunks_eq_drainAll : ∀ (cs : List (List Nat)) (rem : List Nat),
    frame_from_stream_buffer rem = (none, rem) →
    feedChunks rem cs = drainAll (rem ++ cs.flatten)
  | [], rem, h => by
    rw [feedChunks]
    simp only [List.flatten_nil, List.append_nil]
    rw [drainAll_of_none h]
  | c :: cs, rem, h => by
    rw [feedChunks]
    have hstuck := drainAll_snd_stuck (rem ++ c)
    rw [feedChunks_eq_drainAll cs _ hstuck]
    simp only [List.flatten_cons, ← List.append_assoc]
    rw [drainAll_append (rem ++ c) cs.flatten]

/-- C1: feeding a byte stream through `frame_from_stream_buffer` chunk by
chunk (draining all complete frames after each append, as `handle_client`
does) emits exactly the same frame sequence and leaves the same remainder
as presenting the whole stream at once; and whenever a frame is returned,
the frame concatenated with the returned remainder equals the input
buffer, the buffer holds at least 6 header bytes and at least
`6 + length` total bytes, and the frame is exactly `6 + length` bytes
long — so no byte is consumed twice or re-emitted. -/
theorem C1_frame_reassembly_chunk_invariant :
    (∀ chunks : List (List Nat), feedChunks [] chunks = drainAll chunks.flatten) ∧
    (∀ buf f r : List Nat, frame_from_stream_buffer buf = (some f, r) →
      f ++ r = buf ∧ 6 ≤ buf.length ∧ 6 + hdrLen buf ≤ buf.length ∧
        f.length = 6 + hdrLen buf) := by
  constructor
  · intro chunks
    have h0 : frame_from_stream_buffer [] = (none, []) := rfl
    rw [feedChunks_eq_drainAll chunks [] h0]
    rfl
  · intro buf f r h
    obtain ⟨h6, htot, hf, hr⟩ := frame_some_spec h
    subst hf; subst hr
    refine ⟨List.take_append_drop _ _, h6, htot, ?_⟩
    rw [List.length_take]
    omega

theorem C1_witness :
    frame_from_stream_buffer [0, 1, 0, 0, 0, 2, 1, 3, 9] =
      (some [0, 1, 0, 0, 0, 2, 1, 3], [9]) ∧
    ([0, 1, 0, 0, 0, 2, 1, 3] ++ [9] = [0, 1, 0, 0, 0, 2, 1, 3, 9] ∧
      6 ≤ ([0, 1, 0, 0, 0, 2, 1, 3, 9] : List Nat).length ∧
      6 + hdrLen [0, 1, 0, 0, 0, 2, 1, 3, 9] ≤
        ([0, 1, 0, 0, 0, 2, 1, 3, 9] : List Nat).length ∧
      ([0, 1, 0, 0, 0, 2, 1, 3] : List Nat).length =
        6 + hdrLen [0, 1, 0, 0, 0, 2, 1, 3, 9]) :=
  ⟨by decide, C1_frame_reassembly_chunk_invariant.2 _ _ _ (by decide)⟩

/-- `parse_request_pdu` from `src/modbus_tcp.py`.  Python `raise
ValueError` is modelled as `Except.error`. -/
def parse_request_pdu (frame : List Nat) : Except String ModbusRequest :=
  if frame.length < 8 then .error "frame too short"
  else if u16be frame 2 ≠ 0 then .error "protocol id must be 0"
  else if (frame.drop 7).length < 5 then .error "pdu too short"
  else .ok
    { transaction_id := u16be frame 0
      protocol_id := u16be frame 2
      unit_id := frame.getD 6 0
      function_code := frame.getD 7 0
      address := u16be frame 8
      value_or_count := u16be frame 10 }

/-- `build_response_adu` from `src/modbus_tcp.py`.  The two failure
modes of the Python code are modelled as `Except.error`: the
`assert values is not None` for FC03, and the `ValueError` that
`bytes([3, byte_count])` raises when `byte_count` exceeds 255. -/
def build_response_adu (req : ModbusRequest) (values : Option (List Nat)) :
    Except String (List Nat) :=
  match
    (if req.function_code = 3 then
      match values with
      | none => Except.error "values is None"
      | some vs =>
        if 255 < vs.length * 2 then Except.error "byte must be in range"
        else Except.ok (3 :: vs.length * 2 :: vs.flatMap (fun v => pack16 (v % 65536)))
    else if req.function_code = 6 then
      Except.ok (6 :: (pack16 req.address ++ pack16 req.value_or_count))
    else Except.ok [(req.function_code ||| 128) % 256, 1]) with
  | .error e => .error e
  | .ok pdu =>
    .ok (pack16 req.transaction_id ++ pack16 0 ++ pack16 (1 + pdu.length)
          ++ [req.unit_id % 256] ++ pdu)

/-- `build_exception_adu` from `src/modbus_tcp.py`. -/
def build_exception_adu (req : ModbusRequest) (exc_code : Nat) : List Nat :=
  pack16 req.transaction_id ++ pack16 0 ++ pack16 3
    ++ [req.unit_id % 256] ++ [(req.function_code ||| 128) % 256, exc_code % 256]

/-- `DeviceModel._check_range` from `src/device.py`. -/
def check_range (address count : Int) (size : Nat) : Except String Unit :=
  if address < 0 ∨ count ≤ 0 then .error "invalid address/count"
  else if address + count > size then .error "illegal address"
  else .ok ()

/-- `DeviceModel.read_holding` from `src/device.py`. -/
def read_holding (holding : List Nat) (address count : Int) :
    Except String (List Nat) :=
  match check_range address count holding.length with
  | .error e => .error e
  | .ok _ => .ok ((holding.drop address.toNat).take count.toNat)

/-- `DeviceModel.write_single` from `src/device.py`; returns the updated
register list (the Python method mutates `self.holding` in place). -/
def write_single (holding : List Nat) (address : Int) (value : Nat) :
    Except String (List Nat) :=
  match check_range address 1 holding.length with
  | .error e => .error e
  | .ok _ => .ok (holding.set address.toNat (value % 65536))

/-- The per-request dispatch of `handle_client` in `src/server.py`:
FC03 read + response, FC06 write + echo, any other code exception 1;
a `ValueError` raised by the device model or the response builder is
answered with exception code 2 (Illegal Data Address).  Returns the
new holding bank and the response bytes. -/
def serverStep (holding : List Nat) (req : ModbusRequest) :
    List Nat × List Nat :=
  if req.function_code = 3 then
    match read_holding holding req.address req.value_or_count with
    | .ok values =>
      match build_response_adu req (some values) with
      | .ok resp => (holding, resp)
      | .error _ => (holding, build_exception_adu req 2)
    | .error _ => (holding, build_exception_adu req 2)
  else if req.function_code = 6 then
    match write_single holding req.address req.value_or_count with
    | .ok holding2 =>
      match build_response_adu req none with
      | .ok resp => (holding2, resp)
      | .error _ => (holding2, build_exception_adu req 2)
    | .error _ => (holding, build_exception_adu req 2)
  else (holding, build_exception_adu req 1)

/-- The frame-processing loop of `handle_client` in `src/server.py`
with the default (all-disabled) fault injector: parse each complete
frame; on a parse error log and skip that frame, continuing with the
rest; otherwise dispatch and send the response.  Returns the final
holding bank and the responses sent, in order. -/
def handleFrames (holding : List Nat) : List (List Nat) → List Nat × List (List Nat)
  | [] => (holding, [])
  | f :: fs =>
    match parse_request_pdu f with
    | .error _ => handleFrames holding fs
    | .ok req =>
      let p := serverStep holding req
      let q := handleFrames p.1 fs
      (q.1, p.2 :: q.2)

/-- `ExcCodes.ILLEGAL_ADDRESS` of pymodbus: Modbus exception code 2. -/
def ILLEGAL_ADDRESS : Nat := 2

/-- `RejectAllDataBlock.getValues` from `src/TCP/tcp_servers/tcp_context.py`
(and `src/TCP/modbus_tcp.py`): every read answers `ILLEGAL_ADDRESS`. -/
def rejectAllGetValues (_address _count : Nat) : Except Nat (List Nat) :=
  .error ILLEGAL_ADDRESS

/-- `RejectAllDataBlock.setValues`: every write answers `ILLEGAL_ADDRESS`. -/
def rejectAllSetValues (_address : Nat) (_values : List Nat) : Except Nat Unit :=
  .error ILLEGAL_ADDRESS

theorem check_range_fails {address count : Int} {size : Nat}
    (h : address < 0 ∨ count ≤ 0 ∨ address + count > size) :
    ∃ e, check_range address count size = .error e := by
  unfold check_range
  by_cases h1 : address < 0 ∨ count ≤ 0
  · rw [if_pos h1]
    exact ⟨_, rfl⟩
  · have h2 : address + count > size := by
      rcases h with h | h | h
      · exact absurd (Or.inl h) h1
      · exact absurd (Or.inr h) h1
      · exact h
    rw [if_neg h1, if_pos h2]
    exact ⟨_, rfl⟩

theorem read_holding_fails (holding : List Nat) (address count : Int)
    (h : address < 0 ∨ count ≤ 0 ∨ address + count > holding.length) :
    ∃ e, read_holding holding address count = .error e := by
  obtain ⟨e, he⟩ := check_range_fails h
  exact ⟨e, by unfold read_holding; rw [he]⟩

theorem write_single_fails (holding : List Nat) (address : Int) (value : Nat)
    (h : address < 0 ∨ address + 1 > holding.length) :
    ∃ e, write_single holding address value = .error e := by
  obtain ⟨e, he⟩ := check_range_fails
    (show address < 0 ∨ (1 : Int) ≤ 0 ∨ address + 1 > holding.length by
      rcases h with h | h
      · exact Or.inl h
      · exact Or.inr (Or.inr h))
  exact ⟨e, by unfold write_single; rw [he]⟩

/-- C2: an FC03 read or FC06 write whose address is negative, whose
count is non-positive (reads), or whose address + count (count = 1 for
a single write) exceeds the holding-bank size is answered with an
exception frame carrying exception code 2 (Illegal Data Address) and
leaves the bank unchanged; and the rejecting (unsupported-table)
datablock answers exception code 2 to both reads and writes. -/
theorem C2_out_of_range_exception_code_2 :
    (∀ (holding : List Nat) (req : ModbusRequest), req.function_code = 3 →
      ((req.address : Int) < 0 ∨ (req.value_or_count : Int) ≤ 0 ∨
        (req.address : Int) + (req.value_or_count : Int) > holding.length) →
      serverStep holding req = (holding, build_exception_adu req 2)) ∧
    (∀ (holding : List Nat) (req : ModbusRequest), req.function_code = 6 →
      ((req.address : Int) < 0 ∨ (req.address : Int) + 1 > holding.length) →
      serverStep holding req = (holding, build_exception_adu req 2)) ∧
    (∀ address count : Nat, rejectAllGetValues address count = .error 2) ∧
    (∀ (address : Nat) (values : List Nat),
      rejectAllSetValues address values = .error 2) := by
  refine ⟨?_, ?_, fun _ _ => rfl, fun _ _ => rfl⟩
  · intro holding req h3 hbad
    obtain ⟨e, he⟩ := read_holding_fails holding _ _ hbad
    unfold serverStep
    rw [if_pos h3, he]
  · intro holding req h6 hbad
    obtain ⟨e, he⟩ :=
      write_single_fails holding req.address req.value_or_count hbad
    unfold serverStep
    rw [if_neg (by omega), if_pos h6, he]

/-- A concrete FC03 request whose count overruns a 2-register bank. -/
def reqReadOverrun : ModbusRequest := ⟨1, 0, 1, 3, 1, 5⟩

/-- A concrete FC06 request whose address lies outside a 2-register bank. -/
def reqWriteOverrun : ModbusRequest := ⟨1, 0, 1, 6, 7, 5⟩

theorem C2_witness :
    (serverStep [0, 0] reqReadOverrun =
      ([0, 0], build_exception_adu reqReadOverrun 2)) ∧
    (serverStep [0, 0] reqWriteOverrun =
      ([0, 0], build_exception_adu reqWriteOverrun 2)) ∧
    rejectAllGetValues 0 1 = .error 2 ∧
    rejectAllSetValues 0 [1] = .error 2 :=
  ⟨C2_out_of_range_exception_code_2.1 [0, 0] _ rfl (by decide),
   C2_out_of_range_exception_code_2.2.1 [0, 0] _ rfl (by decide),
   C2_out_of_range_exception_code_2.2.2.1 0 1,
   C2_out_of_range_exception_code_2.2.2.2 0 [1]⟩

/-- C9: `parse_request_pdu` fails exactly when the frame is shorter
than 8 bytes, the protocol-id field is non-zero, or the payload after
the unit id is shorter than 5 bytes; on success it returns the
transaction id, unit id, function code, 16-bit address and 16-bit
count-or-value field decoded big-endian; and the connection handler
skips a frame that fails to parse and continues with the remaining
frames, with the register bank and the rest of the processing
unaffected. -/
theorem C9_parse_errors_and_skip :
    (∀ frame : List Nat,
      (∃ e, parse_request_pdu frame = .error e) ↔
        (frame.length < 8 ∨ u16be frame 2 ≠ 0 ∨ (frame.drop 7).length < 5)) ∧
    (∀ frame : List Nat,
      ¬(frame.length < 8 ∨ u16be frame 2 ≠ 0 ∨ (frame.drop 7).length < 5) →
      parse_request_pdu frame =
        .ok ⟨u16be frame 0, 0, frame.getD 6 0, frame.getD 7 0,
             u16be frame 8, u16be frame 10⟩) ∧
    (∀ (holding f : List Nat) (fs : List (List Nat)) (e : String),
      parse_request_pdu f = .error e →
      handleFrames holding (f :: fs) = handleFrames holding fs) := by
  refine ⟨?_, ?_, ?_⟩
  · intro frame
    unfold parse_request_pdu
    by_cases h1 : frame.length < 8
    · simp [h1]
    · by_cases h2 : u16be frame 2 ≠ 0
      · simp [h1, h2]
      · by_cases h3 : (frame.drop 7).length < 5
        · rw [List.length_drop] at h3
          simp [h1, h2, h3]
        · rw [List.length_drop] at h3
          simp [h1, h2, h3]
  · intro frame h
    push_neg at h
    obtain ⟨h1, h2, h3⟩ := h
    unfold parse_request_pdu
    rw [if_neg (by omega), if_neg (by simp [h2]), if_neg (by omega), h2]
  · intro holding f fs e he
    simp only [handleFrames]
    rw [he]

theorem C9_witness :
    (parse_request_pdu [0, 1, 0, 0, 0, 6, 1, 3, 0, 0, 0, 1] =
      .ok ⟨1, 0, 1, 3, 0, 1⟩) ∧
    (handleFrames [0] [[0, 1, 0, 5, 0, 6, 1, 3, 0, 0, 0, 1]] =
      handleFrames [0] []) :=
  ⟨C9_parse_errors_and_skip.2.1
      [0, 1, 0, 0, 0, 6, 1, 3, 0, 0, 0, 1] (by decide),
   C9_parse_errors_and_skip.2.2 [0] _ [] "protocol id must be 0" rfl⟩

/-- Python's built-in `round()` — round half to even — on an exact
rational (Python floats are modelled as exact rationals). -/
def pythonRound (q : ℚ) : Int :=
  if q - ⌊q⌋ < 1/2 then ⌊q⌋
  else if 1/2 < q - ⌊q⌋ then ⌊q⌋ + 1
  else if ⌊q⌋ % 2 = 0 then ⌊q⌋ else ⌊q⌋ + 1

theorem pythonRound_abs (q : ℚ) : |(pythonRound q : ℚ) - q| ≤ 1/2 := by
  have h0 : ((⌊q⌋ : Int) : ℚ) ≤ q := Int.floor_le q
  have h1 : q < (⌊q⌋ : ℚ) + 1 := Int.lt_floor_add_one q
  unfold pythonRound
  split
  · next h => rw [abs_le]; constructor <;> push_cast <;> linarith
  · next h =>
    split
    · next h2 => rw [abs_le]; constructor <;> push_cast <;> linarith
    · next h2 =>
      split <;> rw [abs_le] <;> constructor <;> push_cast <;> linarith

theorem pythonRound_le {q : ℚ} {n : Int} (h : q ≤ (n : ℚ)) :
    pythonRound q ≤ n := by
  have hq : ((⌊q⌋ : Int) : ℚ) ≤ q := Int.floor_le q
  have hfl : ⌊q⌋ ≤ n := by
    have h2 := Int.floor_le_floor h
    simpa using h2
  have hsucc : ¬(q - ⌊q⌋ < 1/2) → ⌊q⌋ + 1 ≤ n := by
    intro hge
    have hlt : ((⌊q⌋ : Int) : ℚ) < (n : ℚ) := by
      push_neg at hge
      linarith
    have hlt2 : ⌊q⌋ < n := by exact_mod_cast hlt
    omega
  unfold pythonRound
  split
  · exact hfl
  · next hcond =>
    split
    · exact hsucc hcond
    · split
      · exact hfl
      · exact hsucc hcond

theorem le_pythonRound {n : Int} {q : ℚ} (h : (n : ℚ) ≤ q) :
    n ≤ pythonRound q := by
  have hfl : n ≤ ⌊q⌋ := Int.le_floor.mpr h
  unfold pythonRound
  split
  · exact hfl
  · split
    · omega
    · split <;> omega

namespace DeviceModel

/-- `DeviceModel.POWER_SCALE` from `src/TCP/device.py`: 0.1 kW/LSB. -/
def POWER_SCALE : ℚ := 1/10

/-- `_int16_to_u16` from `src/TCP/device.py`: Python `x & 0xFFFF`. -/
def int16_to_u16 (x : Int) : Int := x % 65536

/-- `_u16_to_int16` from `src/TCP/device.py`. -/
def u16_to_int16 (x : Int) : Int := if 32768 ≤ x then x - 65536 else x

/-- `DeviceModel.encode_power_kw` from `src/TCP/device.py`: raises when
the scaled raw value leaves the int16 range. -/
def encode_power_kw (kw : ℚ) : Except String Int :=
  if pythonRound (kw / POWER_SCALE) < -32768 ∨
      32767 < pythonRound (kw / POWER_SCALE) then
    .error "Power out of int16 range after scaling"
  else .ok (int16_to_u16 (pythonRound (kw / POWER_SCALE)))

/-- `DeviceModel.decode_power_kw` from `src/TCP/device.py`. -/
def decode_power_kw (reg_u16 : Int) : ℚ :=
  (u16_to_int16 (reg_u16 % 65536) : ℚ) * POWER_SCALE

/-- `DeviceModel.encode_scaled_uint16` from `src/TCP/device.py`. -/
def encode_scaled_uint16 (value scale min_val max_val : ℚ) : Int :=
  pythonRound (max min_val (min max_val value) / scale) % 65536

/-- `DeviceModel.decode_scaled_uint16` from `src/TCP/device.py`. -/
def decode_scaled_uint16 (reg_u16 : Int) (scale : ℚ) : ℚ :=
  ((reg_u16 % 65536 : Int) : ℚ) * scale

/-- `DeviceModel.encode_soc`: SOC percent, scale 1, clamp [0, 100]. -/
def encode_soc (percent : ℚ) : Int := encode_scaled_uint16 percent 1 0 100

/-- `DeviceModel.decode_soc`. -/
def decode_soc (reg_u16 : Int) : ℚ := decode_scaled_uint16 reg_u16 1

/-- `DeviceModel.encode_soh`: SOH percent, scale 1, clamp [0, 100]. -/
def encode_soh (percent : ℚ) : Int := encode_scaled_uint16 percent 1 0 100

/-- `DeviceModel.decode_soh`. -/
def decode_soh (reg_u16 : Int) : ℚ := decode_scaled_uint16 reg_u16 1

/-- `DeviceModel.encode_capacity_kwh`: scale 0.1, clamp [0, 6553.5]. -/
def encode_capacity_kwh (kwh : ℚ) : Int :=
  encode_scaled_uint16 kwh (1/10) 0 6553.5

/-- `DeviceModel.decode_capacity_kwh`. -/
def decode_capacity_kwh (reg_u16 : Int) : ℚ :=
  decode_scaled_uint16 reg_u16 (1/10)

end DeviceModel

namespace TcpContext

/-- `_int16_to_u16` from `src/TCP/tcp_servers/tcp_context.py`. -/
def int16_to_u16 (x : Int) : Int := x % 65536

/-- `_u16_to_int16` from `src/TCP/tcp_servers/tcp_context.py`. -/
def u16_to_int16 (x : Int) : Int := if 32768 ≤ x then x - 65536 else x

/-- `encode_power_kw` from `src/TCP/tcp_servers/tcp_context.py`: note
this variant has no range check — it masks the scaled raw value to
16 bits unconditionally. -/
def encode_power_kw (kw : ℚ) : Int := int16_to_u16 (pythonRound (kw / (1/10)))

/-- `decode_power_kw` from `src/TCP/tcp_servers/tcp_context.py`. -/
def decode_power_kw (reg_u16 : Int) : ℚ :=
  (u16_to_int16 (reg_u16 % 65536) : ℚ) * (1/10)

/-- `encode_soc` from `src/TCP/tcp_servers/tcp_context.py`. -/
def encode_soc (percent : ℚ) : Int :=
  pythonRound (max 0 (min 100 percent)) % 65536

/-- `decode_soc` from `src/TCP/tcp_servers/tcp_context.py`. -/
def decode_soc (reg_u16 : Int) : ℚ := ((reg_u16 % 65536 : Int) : ℚ)

/-- `encode_soh` from `src/TCP/tcp_servers/tcp_context.py`. -/
def encode_soh (percent : ℚ) : Int :=
  pythonRound (max 0 (min 100 percent)) % 65536

/-- `decode_soh` from `src/TCP/tcp_servers/tcp_context.py`. -/
def decode_soh (reg_u16 : Int) : ℚ := ((reg_u16 % 65536 : Int) : ℚ)

/-- `encode_capacity_kwh` from `src/TCP/tcp_servers/tcp_context.py`:
clamp below at 0 only, scale 0.1, mask to 16 bits. -/
def encode_capacity_kwh (kwh : ℚ) : Int :=
  pythonRound (max 0 kwh / (1/10)) % 65536

/-- `decode_capacity_kwh` from `src/TCP/tcp_servers/tcp_context.py`. -/
def decode_capacity_kwh (reg_u16 : Int) : ℚ :=
  ((reg_u16 % 65536 : Int) : ℚ) * (1/10)

end TcpContext

theorem u16_roundtrip {raw : Int} (h1 : -32768 ≤ raw) (h2 : raw ≤ 32767) :
    DeviceModel.u16_to_int16 (DeviceModel.int16_to_u16 raw % 65536) = raw := by
  unfold DeviceModel.u16_to_int16 DeviceModel.int16_to_u16
  split <;> omega

/-- C3: every codec recovers a physical value in its representable
range to within half its scale factor: power within 0.05 kW on
[-3276.8, 3276.7], SOC and SOH within 0.5 % on [0, 100], capacity
within 0.05 kWh on [0, 6553.5]. -/
theorem C3_codec_roundtrip :
    (∀ v : ℚ, -3276.8 ≤ v → v ≤ 3276.7 →
      ∃ r, DeviceModel.encode_power_kw v = .ok r ∧
        |DeviceModel.decode_power_kw r - v| ≤ 0.05) ∧
    (∀ v : ℚ, 0 ≤ v → v ≤ 100 →
      |DeviceModel.decode_soc (DeviceModel.encode_soc v) - v| ≤ 0.5) ∧
    (∀ v : ℚ, 0 ≤ v → v ≤ 100 →
      |DeviceModel.decode_soh (DeviceModel.encode_soh v) - v| ≤ 0.5) ∧
    (∀ v : ℚ, 0 ≤ v → v ≤ 6553.5 →
      |DeviceModel.decode_capacity_kwh (DeviceModel.encode_capacity_kwh v) - v|
        ≤ 0.05) := by
  have socCase : ∀ v : ℚ, 0 ≤ v → v ≤ 100 →
      |DeviceModel.decode_scaled_uint16
        (DeviceModel.encode_scaled_uint16 v 1 0 100) 1 - v| ≤ 0.5 := by
    intro v h0 h100
    unfold DeviceModel.decode_scaled_uint16 DeviceModel.encode_scaled_uint16
    rw [min_eq_right h100, max_eq_right h0, div_one]
    have h1 : 0 ≤ pythonRound v := le_pythonRound (by push_cast; linarith)
    have h2 : pythonRound v ≤ 100 := pythonRound_le (by push_cast; linarith)
    have hmod : pythonRound v % 65536 % 65536 = pythonRound v := by omega
    rw [hmod, mul_one]
    have habs := pythonRound_abs v
    linarith [habs]
  refine ⟨?_, socCase, socCase, ?_⟩
  · intro v hlo hhi
    have hdiv : v / DeviceModel.POWER_SCALE = 10 * v := by
      unfold DeviceModel.POWER_SCALE; ring
    have h1 : -32768 ≤ pythonRound (10 * v) :=
      le_pythonRound (by push_cast; linarith)
    have h2 : pythonRound (10 * v) ≤ 32767 :=
      pythonRound_le (by push_cast; linarith)
    refine ⟨DeviceModel.int16_to_u16 (pythonRound (10 * v)), ?_, ?_⟩
    · unfold DeviceModel.encode_power_kw
      rw [hdiv, if_neg (by omega)]
    · unfold DeviceModel.decode_power_kw
      rw [u16_roundtrip h1 h2]
      unfold DeviceModel.POWER_SCALE
      have habs := pythonRound_abs (10 * v)
      have hrew : (pythonRound (10 * v) : ℚ) * (1/10) - v =
          ((pythonRound (10 * v) : ℚ) - 10 * v) * (1/10) := by ring
      rw [hrew, abs_mul]
      have h10 : |(1/10 : ℚ)| = 1/10 := by norm_num
      rw [h10]
      nlinarith [habs]
  · intro v h0 hcap
    unfold DeviceModel.decode_capacity_kwh DeviceModel.encode_capacity_kwh
      DeviceModel.decode_scaled_uint16 DeviceModel.encode_scaled_uint16
    rw [min_eq_right hcap, max_eq_right h0]
    have hdiv : v / (1/10 : ℚ) = 10 * v := by ring
    rw [hdiv]
    have h1 : 0 ≤ pythonRound (10 * v) :=
      le_pythonRound (by push_cast; linarith)
    have h2 : pythonRound (10 * v) ≤ 65535 :=
      pythonRound_le (by push_cast; linarith)
    have hmod : pythonRound (10 * v) % 65536 % 65536 = pythonRound (10 * v) := by
      omega
    rw [hmod]
    have habs := pythonRound_abs (10 * v)
    have hrew : (pythonRound (10 * v) : ℚ) * (1/10) - v =
        ((pythonRound (10 * v) : ℚ) - 10 * v) * (1/10) := by ring
    rw [hrew, abs_mul]
    have h10 : |(1/10 : ℚ)| = 1/10 := by norm_num
    rw [h10]
    nlinarith [habs]

theorem C3_witness :
    -3276.8 ≤ (1.23 : ℚ) ∧ (1.23 : ℚ) ≤ 3276.7 ∧
    (∃ r, DeviceModel.encode_power_kw 1.23 = .ok r ∧
      |DeviceModel.decode_power_kw r - 1.23| ≤ 0.05) ∧
    |DeviceModel.decode_soc (DeviceModel.encode_soc 49.6) - 49.6| ≤ 0.5 ∧
    |DeviceModel.decode_soh (DeviceModel.encode_soh 49.6) - 49.6| ≤ 0.5 ∧
    |DeviceModel.decode_capacity_kwh (DeviceModel.encode_capacity_kwh 1.23)
      - 1.23| ≤ 0.05 :=
  ⟨by norm_num, by norm_num,
   C3_codec_roundtrip.1 1.23 (by norm_num) (by norm_num),
   C3_codec_roundtrip.2.1 49.6 (by norm_num) (by norm_num),
   C3_codec_roundtrip.2.2.1 49.6 (by norm_num) (by norm_num),
   C3_codec_roundtrip.2.2.2 1.23 (by norm_num) (by norm_num)⟩

theorem pythonRound_intCast (n : Int) : pythonRound ((n : Int) : ℚ) = n := by
  unfold pythonRound
  rw [Int.floor_intCast, sub_self]
  norm_num

theorem C4_counterexample :
    32767 < pythonRound ((5000 : ℚ) / (1/10)) ∧
    TcpContext.encode_power_kw 5000 = 50000 ∧
    TcpContext.decode_power_kw 50000 = -1553.6 := by
  have h50000 : ((5000 : ℚ) / (1/10)) = ((50000 : Int) : ℚ) := by norm_num
  refine ⟨?_, ?_, ?_⟩
  · rw [h50000, pythonRound_intCast]
    decide
  · unfold TcpContext.encode_power_kw TcpContext.int16_to_u16
    rw [h50000, pythonRound_intCast]
    decide
  · unfold TcpContext.decode_power_kw
    have hu : TcpContext.u16_to_int16 (50000 % 65536) = -15536 := by
      unfold TcpContext.u16_to_int16
      decide
    rw [hu]
    norm_num

/-- C4 (amended): `DeviceModel.encode_power_kw` fails with an error for
every power value whose scaled raw form leaves the signed 16-bit range,
but the `tcp_context.encode_power_kw` variant (used by the controllers)
instead silently reduces the raw value modulo 2^16; SOC, SOH and
capacity values outside their unsigned ranges are silently clamped to
the range boundary and encoding them never fails. -/
theorem C4_amended_encode_range :
    (∀ v : ℚ, (pythonRound (v / DeviceModel.POWER_SCALE) < -32768 ∨
        32767 < pythonRound (v / DeviceModel.POWER_SCALE)) →
      DeviceModel.encode_power_kw v =
        .error "Power out of int16 range after scaling") ∧
    (∀ v : ℚ, TcpContext.encode_power_kw v =
      pythonRound (v / (1/10)) % 65536) ∧
    (∀ v : ℚ, 100 < v → DeviceModel.encode_soc v = 100) ∧
    (∀ v : ℚ, v < 0 → DeviceModel.encode_soc v = 0) ∧
    (∀ v : ℚ, 100 < v → DeviceModel.encode_soh v = 100) ∧
    (∀ v : ℚ, v < 0 → DeviceModel.encode_soh v = 0) ∧
    (∀ v : ℚ, 6553.5 < v → DeviceModel.encode_capacity_kwh v = 65535) ∧
    (∀ v : ℚ, v < 0 → DeviceModel.encode_capacity_kwh v = 0) := by
  have hsoc100 : ∀ v : ℚ, 100 < v →
      DeviceModel.encode_scaled_uint16 v 1 0 100 = 100 := by
    intro v h
    unfold DeviceModel.encode_scaled_uint16
    rw [min_eq_left (le_of_lt h),
      show ((0 : ℚ) ⊔ 100) / 1 = ((100 : Int) : ℚ) by norm_num,
      pythonRound_intCast]
    decide
  have hsoc0 : ∀ v : ℚ, v < 0 →
      DeviceModel.encode_scaled_uint16 v 1 0 100 = 0 := by
    intro v h
    unfold DeviceModel.encode_scaled_uint16
    rw [min_eq_right (le_of_lt (lt_of_lt_of_le h (by norm_num))),
      max_eq_left (le_of_lt h),
      show ((0 : ℚ)) / 1 = ((0 : Int) : ℚ) by norm_num,
      pythonRound_intCast]
    decide
  refine ⟨?_, fun _ => rfl, hsoc100, hsoc0, hsoc100, hsoc0, ?_, ?_⟩
  · intro v h
    unfold DeviceModel.encode_power_kw
    rw [if_pos h]
  · intro v h
    unfold DeviceModel.encode_capacity_kwh DeviceModel.encode_scaled_uint16
    rw [min_eq_left (le_of_lt h),
      show ((0 : ℚ) ⊔ 6553.5) / (1/10) = ((65535 : Int) : ℚ) by norm_num,
      pythonRound_intCast]
    decide
  · intro v h
    unfold DeviceModel.encode_capacity_kwh DeviceModel.encode_scaled_uint16
    rw [min_eq_right (le_of_lt (lt_of_lt_of_le h (by norm_num))),
      max_eq_left (le_of_lt h),
      show ((0 : ℚ)) / (1/10) = ((0 : Int) : ℚ) by norm_num,
      pythonRound_intCast]
    decide

theorem C4_witness :
    DeviceModel.encode_power_kw 5000 =
      .error "Power out of int16 range after scaling" ∧
    TcpContext.encode_power_kw 5000 = pythonRound ((5000 : ℚ) / (1/10)) % 65536 ∧
    DeviceModel.encode_soc 150 = 100 ∧
    DeviceModel.encode_soc (-3) = 0 ∧
    DeviceModel.encode_soh 150 = 100 ∧
    DeviceModel.encode_soh (-3) = 0 ∧
    DeviceModel.encode_capacity_kwh 7000 = 65535 ∧
    DeviceModel.encode_capacity_kwh (-3) = 0 := by
  have hraw : (5000 : ℚ) / DeviceModel.POWER_SCALE = ((50000 : Int) : ℚ) := by
    norm_num [DeviceModel.POWER_SCALE]
  refine ⟨C4_amended_encode_range.1 5000 (Or.inr ?_),
    C4_amended_encode_range.2.1 5000,
    C4_amended_encode_range.2.2.1 150 (by norm_num),
    C4_amended_encode_range.2.2.2.1 (-3) (by norm_num),
    C4_amended_encode_range.2.2.2.2.1 150 (by norm_num),
    C4_amended_encode_range.2.2.2.2.2.1 (-3) (by norm_num),
    C4_amended_encode_range.2.2.2.2.2.2.1 7000 (by norm_num),
    C4_amended_encode_range.2.2.2.2.2.2.2 (-3) (by norm_num)⟩
  rw [hraw, pythonRound_intCast]
  decide

namespace PcsController

/-- The clamp step of `_tick` in `src/TCP/controllers/pcs_controller.py`:
the active power equals the setpoint, forced to 0 when SOC ≤ 0 and the
setpoint requests discharge (positive), or SOC ≥ 100 and the setpoint
requests charge (negative). -/
def active_power_kw (soc setpoint_kw : ℚ) : ℚ :=
  if soc ≤ 0 ∧ 0 < setpoint_kw then 0
  else if 100 ≤ soc ∧ setpoint_kw < 0 then 0
  else setpoint_kw

/-- One `_tick` of the PCS controller: decode the HR0 setpoint, clamp
against the observed BMS SOC, return the uint16 written to IR0. -/
def tick (setpoint_u16 : Int) (soc : ℚ) : Int :=
  TcpContext.encode_power_kw
    (active_power_kw soc (TcpContext.decode_power_kw setpoint_u16))

end PcsController

/-- C5: per PCS tick with observed SOC `soc` and setpoint `s`
(positive = discharge, negative = charge): `soc ≤ 0` with `s > 0`
forces the active power to 0, `soc ≥ 100` with `s < 0` forces it to 0,
otherwise the active power equals `s`; the value written to the PCS
input register IR0 is the encoding of that active power. -/
theorem C5_pcs_clamp :
    (∀ soc s : ℚ, soc ≤ 0 → 0 < s → PcsController.active_power_kw soc s = 0) ∧
    (∀ soc s : ℚ, 100 ≤ soc → s < 0 → PcsController.active_power_kw soc s = 0) ∧
    (∀ soc s : ℚ, ¬(soc ≤ 0 ∧ 0 < s) → ¬(100 ≤ soc ∧ s < 0) →
      PcsController.active_power_kw soc s = s) ∧
    (∀ (u16 : Int) (soc : ℚ), PcsController.tick u16 soc =
      TcpContext.encode_power_kw
        (PcsController.active_power_kw soc (TcpContext.decode_power_kw u16))) := by
  refine ⟨?_, ?_, ?_, fun _ _ => rfl⟩
  · intro soc s h1 h2
    unfold PcsController.active_power_kw
    rw [if_pos ⟨h1, h2⟩]
  · intro soc s h1 h2
    unfold PcsController.active_power_kw
    have hnot : ¬(soc ≤ 0 ∧ 0 < s) := by
      rintro ⟨ha, hb⟩
      linarith
    rw [if_neg hnot, if_pos ⟨h1, h2⟩]
  · intro soc s h1 h2
    unfold PcsController.active_power_kw
    rw [if_neg h1, if_neg h2]

theorem C5_witness :
    PcsController.active_power_kw 0 50 = 0 ∧
    PcsController.active_power_kw 100 (-50) = 0 ∧
    PcsController.active_power_kw 50 50 = 50 ∧
    PcsController.tick 500 50 =
      TcpContext.encode_power_kw
        (PcsController.active_power_kw 50 (TcpContext.decode_power_kw 500)) :=
  ⟨C5_pcs_clamp.1 0 50 (by decide) (by decide),
   C5_pcs_clamp.2.1 100 (-50) (by decide) (by decide),
   C5_pcs_clamp.2.2.1 50 50 (by decide) (by decide),
   C5_pcs_clamp.2.2.2 500 50⟩

namespace BmsController

/-- One SOC-integration step of `_loop` in
`src/TCP/controllers/bms_controller.py`: from the running float SOC
accumulator (kept in the local variable `soc_float`, not re-read from
the quantized register), the observed PCS active power (kW), the
elapsed time (s) and the configured capacity (kWh), produce the new
accumulator and the uint16 written to IR0 — written on every tick. -/
def step (soc_float active_power_kw dt_s capacity_kwh : ℚ) : ℚ × Int :=
  if 0 < capacity_kwh then
    (max 0 (min 100
        (soc_float + (-(active_power_kw * dt_s) / (capacity_kwh * 3600) * 100))),
     TcpContext.encode_soc (max 0 (min 100
        (soc_float + (-(active_power_kw * dt_s) / (capacity_kwh * 3600) * 100)))))
  else (soc_float, TcpContext.encode_soc soc_float)

end BmsController

/-- C6: per BMS tick with active power `p`, elapsed `dt`, capacity
`c > 0` and accumulator `soc`, the new accumulator equals
`clamp [0,100] (soc + (-(p * dt) / (c * 3600) * 100))`; the accumulator
is carried at full rational precision (the first component, separate
from the quantized register value), and the quantized SOC is written to
the input register on every tick — the written word always equals the
encoding of the new accumulator, whether or not it changed. -/
theorem C6_bms_integration :
    (∀ soc p dt c : ℚ, 0 < c →
      (BmsController.step soc p dt c).1 =
        max 0 (min 100 (soc + (-(p * dt) / (c * 3600) * 100)))) ∧
    (∀ soc p dt c : ℚ,
      (BmsController.step soc p dt c).2 =
        TcpContext.encode_soc (BmsController.step soc p dt c).1) := by
  constructor
  · intro soc p dt c hc
    unfold BmsController.step
    rw [if_pos hc]
  · intro soc p dt c
    unfold BmsController.step
    split <;> rfl

theorem C6_witness :
    (BmsController.step 50 360 10 100).1 =
      max 0 (min 100 (50 + (-(360 * 10) / (100 * 3600) * 100))) ∧
    (BmsController.step 50 360 10 100).2 =
      TcpContext.encode_soc (BmsController.step 50 360 10 100).1 :=
  ⟨C6_bms_integration.1 50 360 10 100 (by decide),
   C6_bms_integration.2 50 360 10 100⟩

/-- The four PMS input registers IR0..IR3 (total power, SOC average,
SOH average, capacity total). -/
structure PmsIR where
  ir0 : Int
  ir1 : Int
  ir2 : Int
  ir3 : Int
deriving DecidableEq, Repr

namespace PmsController

/-- One `_tick` of the PMS controller in
`src/TCP/controllers/pms_controller.py`, with the outcome of each
outbound Modbus read passed in: `pcsResp` holds each PCS's IR0
active-power word when that read succeeded, `bmsResp` each BMS's
(IR0, IR1, IR2) = (soc, soh, capacity) words when that read succeeded
(`none` = peer failed / error reply, excluded from the aggregates).
Decoded sums and averages are taken over the responders only; IR1 and
IR2 are written only when at least one BMS responded, IR0 and IR3
always. -/
def tick (ir : PmsIR) (pcsResp : List (Option Int))
    (bmsResp : List (Option (Int × Int × Int))) : PmsIR :=
  { ir0 := TcpContext.encode_power_kw
      (((pcsResp.filterMap id).map TcpContext.decode_power_kw).sum)
    ir1 := if 0 < (bmsResp.filterMap id).length then
        TcpContext.encode_soc
          (((bmsResp.filterMap id).map
              (fun t => TcpContext.decode_soc t.1)).sum /
            ((bmsResp.filterMap id).length : ℚ))
      else ir.ir1
    ir2 := if 0 < (bmsResp.filterMap id).length then
        TcpContext.encode_soh
          (((bmsResp.filterMap id).map
              (fun t => TcpContext.decode_soh t.2.1)).sum /
            ((bmsResp.filterMap id).length : ℚ))
      else ir.ir2
    ir3 := TcpContext.encode_capacity_kwh
      (((bmsResp.filterMap id).map
          (fun t => TcpContext.decode_capacity_kwh t.2.2)).sum) }

end PmsController

/-- C7: when zero BMS devices respond in a PMS tick, the SOC-average
and SOH-average input registers IR1 and IR2 keep their previous values
while the capacity-total register IR3 is written with the encoding
of 0 (= 0); when at least one BMS responds, IR1/IR2 hold the encoded
mean over the responding BMS devices only and IR3 the encoded sum of
the responding BMS capacities only. -/
theorem C7_pms_aggregation :
    (∀ (ir : PmsIR) (pcsResp : List (Option Int))
        (bmsResp : List (Option (Int × Int × Int))),
      bmsResp.filterMap id = [] →
      (PmsController.tick ir pcsResp bmsResp).ir1 = ir.ir1 ∧
      (PmsController.tick ir pcsResp bmsResp).ir2 = ir.ir2 ∧
      (PmsController.tick ir pcsResp bmsResp).ir3 =
        TcpContext.encode_capacity_kwh 0 ∧
      TcpContext.encode_capacity_kwh 0 = 0) ∧
    (∀ (ir : PmsIR) (pcsResp : List (Option Int))
        (bmsResp : List (Option (Int × Int × Int))),
      bmsResp.filterMap id ≠ [] →
      (PmsController.tick ir pcsResp bmsResp).ir1 =
        TcpContext.encode_soc
          (((bmsResp.filterMap id).map
              (fun t => TcpContext.decode_soc t.1)).sum /
            ((bmsResp.filterMap id).length : ℚ)) ∧
      (PmsController.tick ir pcsResp bmsResp).ir2 =
        TcpContext.encode_soh
          (((bmsResp.filterMap id).map
              (fun t => TcpContext.decode_soh t.2.1)).sum /
            ((bmsResp.filterMap id).length : ℚ)) ∧
      (PmsController.tick ir pcsResp bmsResp).ir3 =
        TcpContext.encode_capacity_kwh
          (((bmsResp.filterMap id).map
              (fun t => TcpContext.decode_capacity_kwh t.2.2)).sum)) := by
  have hzero : TcpContext.encode_capacity_kwh 0 = 0 := by
    unfold TcpContext.encode_capacity_kwh
    rw [show ((0 : ℚ) ⊔ 0) / (1/10) = ((0 : Int) : ℚ) by norm_num,
      pythonRound_intCast]
    decide
  constructor
  · intro ir pcsResp bmsResp h
    unfold PmsController.tick
    rw [h]
    exact ⟨rfl, rfl, rfl, hzero⟩
  · intro ir pcsResp bmsResp h
    have hlen : 0 < (bmsResp.filterMap id).length := List.length_pos.mpr h
    unfold PmsController.tick
    rw [if_pos hlen, if_pos hlen]
    exact ⟨rfl, rfl, rfl⟩

theorem C7_witness :
    (((([none] : List (Option (Int × Int × Int))).filterMap id = []) ∧
      (PmsController.tick ⟨7, 8, 9, 10⟩ [some 500] [none]).ir1 = 8 ∧
      (PmsController.tick ⟨7, 8, 9, 10⟩ [some 500] [none]).ir2 = 9 ∧
      (PmsController.tick ⟨7, 8, 9, 10⟩ [some 500] [none]).ir3 = 0)) ∧
    ((PmsController.tick ⟨7, 8, 9, 10⟩ [] [some (50, 90, 1000), none]).ir1 =
      TcpContext.encode_soc
        ((([some ((50 : Int), (90 : Int), (1000 : Int)), none].filterMap id).map
            (fun t => TcpContext.decode_soc t.1)).sum /
          ((([some ((50 : Int), (90 : Int), (1000 : Int)), none] :
              List (Option (Int × Int × Int))).filterMap id).length : ℚ))) := by
  have h1 := C7_pms_aggregation.1 ⟨7, 8, 9, 10⟩ [some 500] [none] rfl
  have h2 := C7_pms_aggregation.2 ⟨7, 8, 9, 10⟩ []
    [some (50, 90, 1000), none] (by decide)
  exact ⟨⟨rfl, h1.1, h1.2.1, h1.2.2.1.trans h1.2.2.2⟩, h2.1⟩

/-- Python `random.randint(lo, hi)`: a uniform draw from `[lo, hi]`,
modelled by reducing an arbitrary draw outcome `g` into the interval;
for `lo ≤ hi` exactly the values of the interval are reachable. -/
def randintM (lo hi : Int) (g : Nat) : Int := lo + (g : Int) % (hi + 1 - lo)

/-- `FaultInjector` configuration from `src/faults.py`. -/
structure FaultInjector where
  delay_ms_min : Int
  delay_ms_max : Int
  chunk_min : Int
  chunk_max : Int
  drop_rate : ℚ
  close_rate : ℚ
deriving Repr

namespace FaultInjector

/-- `FaultInjector.maybe_sleep` from `src/faults.py`: the slept
duration in ms, or `none` when delays are disabled. -/
def maybe_sleep (fi : FaultInjector) (g : Nat) : Option Int :=
  if fi.delay_ms_max ≤ 0 then none
  else some (randintM fi.delay_ms_min fi.delay_ms_max g)

/-- `FaultInjector.should_drop`: `random.random() < drop_rate`, with
the uniform draw `r ∈ [0, 1)` passed in. -/
def should_drop (fi : FaultInjector) (r : ℚ) : Bool :=
  decide (r < fi.drop_rate)

/-- `FaultInjector.should_close`: `random.random() < close_rate`. -/
def should_close (fi : FaultInjector) (r : ℚ) : Bool :=
  decide (r < fi.close_rate)

/-- The `for i in range(n - 1)` cut loop of `chunk_bytes`: `rem` counts
the remaining iterations (so `n - i - 1 = rem + 1`), `start` the bytes
already cut, `k` the index of the next random draw.  Each iteration
draws `cut = randint(1, max(1, remaining - (n - i - 1)))` and slices
`data[start : start + cut]`; the final chunk is `data[start:]`. -/
def chunkLoop (data : List Nat) (g : Nat → Nat) :
    Nat → Nat → Nat → List (List Nat)
  | 0, start, _ => [data.drop start]
  | rem + 1, start, k =>
    (data.drop start).take
        (randintM 1 (max 1 ((data.length : Int) - start - (rem + 1))) (g k)).toNat
      :: chunkLoop data g rem
          (start +
            (randintM 1 (max 1 ((data.length : Int) - start - (rem + 1)))
              (g k)).toNat)
          (k + 1)

/-- `FaultInjector.chunk_bytes` from `src/faults.py`: split a response
into `n = randint(chunk_min, chunk_max)` fragments (pass-through when
chunking is disabled, `n ≤ 1`, or the data has at most one byte), then
drop empty fragments. -/
def chunk_bytes (fi : FaultInjector) (g : Nat → Nat) (data : List Nat) :
    List (List Nat) :=
  if fi.chunk_max ≤ 1 then [data]
  else if randintM fi.chunk_min fi.chunk_max (g 0) ≤ 1 ∨ data.length ≤ 1 then
    [data]
  else
    (chunkLoop data (fun k => g (k + 1))
        (randintM fi.chunk_min fi.chunk_max (g 0) - 1).toNat 0 0).filter
      (fun c => !c.isEmpty)

end FaultInjector

theorem chunkLoop_flatten (data : List Nat) (g : Nat → Nat) :
    ∀ (rem start k : Nat),
      (FaultInjector.chunkLoop data g rem start k).flatten = data.drop start
  | 0, _, _ => by
    simp [FaultInjector.chunkLoop]
  | rem + 1, start, k => by
    rw [FaultInjector.chunkLoop, List.flatten_cons,
      chunkLoop_flatten data g rem _ _, ← List.drop_drop]
    exact List.take_append_drop _ _

theorem flatten_filter_isEmpty : ∀ l : List (List Nat),
    (l.filter (fun c => !c.isEmpty)).flatten = l.flatten
  | [] => rfl
  | c :: l => by
    by_cases h : c.isEmpty
    · have hc : c = [] := by simpa using h
      subst hc
      simp [List.filter_cons, flatten_filter_isEmpty l]
    · simp [List.filter_cons, h, flatten_filter_isEmpty l]

/-- The all-disabled injector `FAULTS` configured in `src/server.py`:
no delay, chunk range [1, 1], drop rate 0, close rate 0. -/
def FAULTS : FaultInjector := ⟨0, 0, 1, 1, 0, 0⟩

/-- C8: with the all-disabled configuration the response path is a
byte-identical no-op — no sleep ever occurs, `should_drop` and
`should_close` are false for every non-negative random draw, and
`chunk_bytes` returns exactly the one-element list holding the
unmodified response, so the bytes sent equal the bytes sent without
the injector. -/
theorem C8_injector_passthrough :
    (∀ g : Nat, FAULTS.maybe_sleep g = none) ∧
    (∀ r : ℚ, 0 ≤ r → FAULTS.should_drop r = false) ∧
    (∀ r : ℚ, 0 ≤ r → FAULTS.should_close r = false) ∧
    (∀ (g : Nat → Nat) (data : List Nat), FAULTS.chunk_bytes g data = [data]) ∧
    (∀ (g : Nat → Nat) (data : List Nat),
      (FAULTS.chunk_bytes g data).flatten = data) := by
  refine ⟨fun g => rfl, ?_, ?_, fun g data => rfl, ?_⟩
  · intro r hr
    unfold FaultInjector.should_drop
    exact decide_eq_false (not_lt.mpr hr)
  · intro r hr
    unfold FaultInjector.should_close
    exact decide_eq_false (not_lt.mpr hr)
  · intro g data
    show ([data] : List (List Nat)).flatten = data
    simp

theorem C8_witness :
    FAULTS.maybe_sleep 7 = none ∧
    FAULTS.should_drop 0 = false ∧
    FAULTS.should_close 0 = false ∧
    FAULTS.chunk_bytes (fun k => k) [1, 2, 3] = [[1, 2, 3]] ∧
    (FAULTS.chunk_bytes (fun k => k) [1, 2, 3]).flatten = [1, 2, 3] :=
  ⟨C8_injector_passthrough.1 7,
   C8_injector_passthrough.2.1 0 (by decide),
   C8_injector_passthrough.2.2.1 0 (by decide),
   C8_injector_passthrough.2.2.2.1 (fun k => k) [1, 2, 3],
   C8_injector_passthrough.2.2.2.2 (fun k => k) [1, 2, 3]⟩

/-- C10: for every injector configuration (with a well-formed chunk
range, as `random.randint` requires), every byte string and every
outcome of the random draws, concatenating the fragments returned by
`chunk_bytes` in order yields exactly the input bytes; and when the
input is non-empty, every returned fragment is non-empty. -/
theorem C10_chunk_bytes_concat :
    ∀ (fi : FaultInjector) (g : Nat → Nat) (data : List Nat),
      fi.chunk_min ≤ fi.chunk_max →
      (fi.chunk_bytes g data).flatten = data ∧
      (data ≠ [] → ∀ c ∈ fi.chunk_bytes g data, c ≠ []) := by
  intro fi g data hcfg
  unfold FaultInjector.chunk_bytes
  split
  · refine ⟨by simp, fun hne c hc => ?_⟩
    rw [List.mem_singleton.mp hc]
    exact hne
  · split
    · refine ⟨by simp, fun hne c hc => ?_⟩
      rw [List.mem_singleton.mp hc]
      exact hne
    · refine ⟨?_, fun hne c hc => ?_⟩
      · rw [flatten_filter_isEmpty, chunkLoop_flatten]
        rfl
      · have hmem := (List.mem_filter.mp hc).2
        simpa using hmem

theorem C10_witness :
    (FaultInjector.chunk_bytes ⟨0, 0, 2, 4, 0, 0⟩ (fun k => k)
      [1, 2, 3, 4, 5]).flatten = [1, 2, 3, 4, 5] ∧
    (([1, 2, 3, 4, 5] : List Nat) ≠ [] →
      ∀ c ∈ FaultInjector.chunk_bytes ⟨0, 0, 2, 4, 0, 0⟩ (fun k => k)
        [1, 2, 3, 4, 5], c ≠ []) :=
  C10_chunk_bytes_concat ⟨0, 0, 2, 4, 0, 0⟩ (fun k => k) [1, 2, 3, 4, 5]
    (by decide)
